import Mathlib

/-!
Verification development for the LinkedIn sequence-generator backend.

The definitions below are shallow embeddings of the TypeScript sources:
  * `src/backend/src/services/tov-translator.ts`   (tone-of-voice translator)
  * `src/backend/src/services/ai.service.ts`       (model-call executor with
    retry/backoff/fallback, `getMessageTypes`, and the five-stage JSON
    recovery parser `parseJSONFromLLM` of the Ollama variant)
  * `src/backend/src/middleware/error-handler.ts`  (the `generateSequence`
    two-pass orchestrator and `normalizeProspectAnalysis`, in the second
    document of that file)
  * `src/backend/src/types/index.ts`               (request validation bounds)

JavaScript numbers are modelled as `ℚ` (the numeric literals appearing in the
sources are exactly representable), machine strings as `String`, and fallible
code as `Option`/`Except`.
-/

namespace SeqGen

/-! ## Tone-of-voice translator (`src/backend/src/services/tov-translator.ts`) -/

inductive Tier where
  | low
  | medium
  | high
deriving DecidableEq, Repr

/-- Embedding of `getTier`: `value <= 0.3 → low`, `value <= 0.7 → medium`,
otherwise `high`. -/
def getTier (value : ℚ) : Tier :=
  if value ≤ 3/10 then .low
  else if value ≤ 7/10 then .medium
  else .high

def formalityMap : Tier → String
  | .low => "Use casual, conversational language. Contractions, colloquialisms, and an informal style are encouraged. Write as if messaging a peer."
  | .medium => "Use a professional yet approachable tone. Some contractions are fine, but avoid slang. Strike a balance between formal and conversational."
  | .high => "Use formal, polished language. Avoid contractions, slang, and overly casual expressions. Address the prospect respectfully and maintain a professional register throughout."

def warmthMap : Tier → String
  | .low => "Keep the tone neutral and businesslike. Focus on facts and value rather than personal connection. Avoid excessive friendliness."
  | .medium => "Maintain a moderately warm and personable tone. Show genuine interest in the prospect's work, but avoid being overly familiar or effusive."
  | .high => "Be genuinely warm, empathetic, and personable. Show real interest in the prospect as a person. Use language that builds rapport and makes the reader feel valued."

def directnessMap : Tier → String
  | .low => "Take an indirect, consultative approach. Lead with questions and curiosity rather than pitching. Let the value proposition emerge naturally through conversation."
  | .medium => "Be moderately direct about the value proposition. State your purpose clearly but frame it as a mutual benefit rather than a hard sell."
  | .high => "Be very direct and to-the-point. State the value proposition upfront. Minimize fluff â€” respect the prospect's time with clear, action-oriented language."

def humorMap : Tier → String
  | .low => "Keep the tone serious and professional. Avoid humor or lighthearted remarks."
  | .medium => "A light touch of wit is acceptable where natural, but don't force humor. Keep it professional."
  | .high => "Incorporate tasteful humor and clever observations where appropriate. Use wit to make the message memorable, but never at the prospect's expense."

def enthusiasmMap : Tier → String
  | .low => "Maintain a calm, measured tone. Avoid exclamation marks and overly excited language."
  | .medium => "Show moderate enthusiasm about the opportunity. Be positive without being over-the-top."
  | .high => "Show genuine excitement and energy. Convey passion about the opportunity and how it could help the prospect. Enthusiastic but credible."

structure TovParams where
  formality : ℚ
  warmth : ℚ
  directness : ℚ
  humor : Option ℚ := none
  enthusiasm : Option ℚ := none
  custom_instructions : Option String := none
deriving Repr

/-- Embedding of `translateTov`.  The `custom_instructions` guard models the
JavaScript truthiness test `if (params.custom_instructions)`, under which an
empty string is skipped. -/
def translateTov (params : TovParams) : String :=
  let parts : List String :=
    [formalityMap (getTier params.formality),
     warmthMap (getTier params.warmth),
     directnessMap (getTier params.directness)]
  let parts :=
    match params.humor with
    | some h => parts ++ [humorMap (getTier h)]
    | none => parts
  let parts :=
    match params.enthusiasm with
    | some e => parts ++ [enthusiasmMap (getTier e)]
    | none => parts
  let parts :=
    match params.custom_instructions with
    | some c => if c = "" then parts else parts ++ ["Additional instructions: " ++ c]
    | none => parts
  String.intercalate "\n\n" parts

/-- The Tone Translator as described by the specification sentence of claim
C6 (for refinement comparison only): the tier paragraphs in fixed order and a
present additional-instructions field "appended verbatim as the final
paragraph". -/
def translateTovSpecC6 (params : TovParams) : String :=
  String.intercalate "\n\n" (List.filterMap id
    [some (formalityMap (getTier params.formality)),
     some (warmthMap (getTier params.warmth)),
     some (directnessMap (getTier params.directness)),
     params.humor.map (fun h => humorMap (getTier h)),
     params.enthusiasm.map (fun e => enthusiasmMap (getTier e)),
     params.custom_instructions])

/-- The Tone Translator as described by the amended claim C6: identical to
the claim except that a present non-empty additional-instructions field is
appended as the final paragraph behind the prefix
`Additional instructions: ` (the field text itself kept verbatim after that
prefix). -/
def translateTovAmendedC6 (params : TovParams) : String :=
  String.intercalate "\n\n" (List.filterMap id
    [some (formalityMap (getTier params.formality)),
     some (warmthMap (getTier params.warmth)),
     some (directnessMap (getTier params.directness)),
     params.humor.map (fun h => humorMap (getTier h)),
     params.enthusiasm.map (fun e => enthusiasmMap (getTier e)),
     params.custom_instructions.bind
       (fun c => if c = "" then none else some ("Additional instructions: " ++ c))])

/-- Concrete tone parameters used to separate `translateTov` from the
specification sentence of claim C6. -/
def c6Params : TovParams :=
  { formality := 4/5
    warmth := 3/5
    directness := 1/2
    humor := none
    enthusiasm := none
    custom_instructions := some "Mention the pilot program." }

/-! ## Message-type vocabulary (`getMessageTypes` in `ai.service.ts`) -/

/-- The canonical six-element message-type vocabulary (`types` in the source). -/
def canonicalMessageTypes : List String :=
  ["connection_request", "follow_up_value", "case_study",
   "social_proof", "direct_ask", "breakup"]

/-- Embedding of `getMessageTypes`.  The argument is an integer because the
JavaScript function accepts any number; `types.slice(0, length)` is
`List.take` on the clamped natural number. -/
def getMessageTypes (length : Int) : List String :=
  if length ≤ 1 then ["connection_request"]
  else if length = 2 then ["connection_request", "follow_up_value"]
  else if length = 3 then ["connection_request", "follow_up_value", "direct_ask"]
  else canonicalMessageTypes.take length.toNat

/-- Embedding of the `sequence_length` bound of `generateSequenceSchema`
(`z.number().int().min(1).max(10)` in `src/backend/src/types/index.ts`). -/
def validSequenceLength (n : Int) : Prop := 1 ≤ n ∧ n ≤ 10

instance (n : Int) : Decidable (validSequenceLength n) := by
  unfold validSequenceLength; infer_instance

/-! ## Model-call executor (`callOpenAI` / `callOllama` in `ai.service.ts`)

The OpenAI SDK call is abstracted as a capability `cap : Nat → CallOutcome`
indexed by the number of calls made so far; the database insert of an
`ai_generations` row becomes appending an `AttemptRow` to a log; `sleep`
becomes accumulating milliseconds in `ExecState.sleepMs`.  Latency and
timestamps (wall clock) are not modelled. -/

/-- `PRIMARY_MODEL` of the OpenAI variant of `ai.service.ts`. -/
def OPENAI_PRIMARY_MODEL : String := "gpt-4o-mini"

/-- `FALLBACK_MODEL` of the OpenAI variant of `ai.service.ts`. -/
def OPENAI_FALLBACK_MODEL : String := "gpt-4o"

def MAX_RETRIES : Nat := 3

/-- `COST_TABLE` of the OpenAI variant: USD rates per 1M tokens
(input, output). -/
def COST_TABLE (model : String) : Option (ℚ × ℚ) :=
  if model = "gpt-4o-mini" then some (15/100, 6/10)
  else if model = "gpt-4o" then some (25/10, 10)
  else none

/-- `estimateCost`: unknown models fall back to the `gpt-4o-mini` rates. -/
def estimateCost (model : String) (promptTokens completionTokens : Nat) : ℚ :=
  let rates := (COST_TABLE model).getD (15/100, 6/10)
  ((promptTokens : ℚ) * rates.1 + (completionTokens : ℚ) * rates.2) / 1000000

structure Usage where
  prompt_tokens : Nat
  completion_tokens : Nat
  total_tokens : Nat
deriving Repr, DecidableEq

/-- One invocation of the model-call capability either yields response text
plus usage, or fails (error or timeout) with a message. -/
inductive CallOutcome where
  | ok (content : String) (usage : Usage)
  | fail (message : String)

/-- The fields of an `ai_generations` audit row that the executor fills in
(besides ids, prompt text and timing, which the claims do not mention). -/
structure AttemptRow where
  generation_type : String
  model : String
  prompt_tokens : Option Nat
  completion_tokens : Option Nat
  total_tokens : Option Nat
  estimated_cost_usd : Option ℚ
  status : String
  error_message : Option String
  raw_response : Option String
deriving Repr, DecidableEq

/-- Mutable context threaded through an executor run: the audit log, the
total backoff slept (ms), and how many capability calls were made. -/
structure ExecState where
  log : List AttemptRow
  sleepMs : Nat
  calls : Nat
deriving Repr, DecidableEq

def initState : ExecState := { log := [], sleepMs := 0, calls := 0 }

structure CallSuccess where
  content : String
  usage : Usage
  model : String
deriving Repr, DecidableEq

/-- The `for (let attempt = 1; attempt <= MAX_RETRIES; attempt++)` loop body
shared verbatim by `callOpenAI` and `callOllama`: on success log a `success`
row and return; on failure log an `error` row (`timeout` on the final
permitted attempt), sleep `2^attempt` seconds unless it was the last attempt,
and continue.  The list argument is the sequence of attempt numbers. -/
def runAttempts (cap : Nat → CallOutcome) (generationType model : String) :
    List Nat → ExecState → Option String →
    Option CallSuccess × ExecState × Option String
  | [], st, lastError => (none, st, lastError)
  | attempt :: rest, st, lastError =>
    match cap st.calls with
    | .ok content usage =>
      let row : AttemptRow :=
        { generation_type := generationType
          model := model
          prompt_tokens := some usage.prompt_tokens
          completion_tokens := some usage.completion_tokens
          total_tokens := some usage.total_tokens
          estimated_cost_usd :=
            some (estimateCost model usage.prompt_tokens usage.completion_tokens)
          status := "success"
          error_message := none
          raw_response := some content }
      (some { content := content, usage := usage, model := model },
       { st with log := st.log ++ [row], calls := st.calls + 1 }, lastError)
    | .fail msg =>
      let row : AttemptRow :=
        { generation_type := generationType
          model := model
          prompt_tokens := none
          completion_tokens := none
          total_tokens := none
          estimated_cost_usd := none
          status := if attempt < MAX_RETRIES then "error" else "timeout"
          error_message := some msg
          raw_response := none }
      let st' : ExecState :=
        { st with
          log := st.log ++ [row]
          calls := st.calls + 1
          sleepMs := st.sleepMs + (if attempt < MAX_RETRIES then 2 ^ attempt * 1000 else 0) }
      runAttempts cap generationType model rest st' (some msg)

/-- `new AppError(statusCode, message)`. -/
structure AppError where
  statusCode : Nat
  message : String
deriving Repr, DecidableEq

/-- The `AppError` thrown after retry exhaustion, interpolating
`MAX_RETRIES` and `lastError?.message` (a null `lastError` would interpolate
as the text `undefined`). -/
def retriesExhaustedError (lastError : Option String) : AppError :=
  { statusCode := 502
    message := "AI generation failed after " ++ toString MAX_RETRIES ++ " retries: "
      ++ lastError.getD "undefined" }

/-- Embedding of `callOpenAI` (OpenAI variant).  The source recurses once
with `FALLBACK_MODEL` when the primary model exhausts its retries; because
`FALLBACK_MODEL ≠ PRIMARY_MODEL`, that recursive call cannot recurse again,
so it is unrolled here into the inner `match`. -/
def callOpenAI (cap : Nat → CallOutcome) (generationType : String)
    (model : String) (st : ExecState) :
    Except AppError CallSuccess × ExecState :=
  match runAttempts cap generationType model (List.range' 1 MAX_RETRIES) st none with
  | (some success, st', _) => (.ok success, st')
  | (none, st', lastError) =>
    if model = OPENAI_PRIMARY_MODEL then
      match runAttempts cap generationType OPENAI_FALLBACK_MODEL
          (List.range' 1 MAX_RETRIES) st' none with
      | (some success, st'', _) => (.ok success, st'')
      | (none, st'', lastError') => (.error (retriesExhaustedError lastError'), st'')
    else
      (.error (retriesExhaustedError lastError), st')

/-- Embedding of `callOllama` (Ollama variant): same loop, no fallback
branch (`PRIMARY_MODEL` and `FALLBACK_MODEL` are both `env.OLLAMA_MODEL`). -/
def callOllama (cap : Nat → CallOutcome) (generationType ollamaModel : String)
    (st : ExecState) : Except AppError CallSuccess × ExecState :=
  match runAttempts cap generationType ollamaModel (List.range' 1 MAX_RETRIES) st none with
  | (some success, st', _) => (.ok success, st')
  | (none, st', lastError) => (.error (retriesExhaustedError lastError), st')

/-! ## JSON values and a model of `JSON.parse`

`parseJSONFromLLM` (Ollama variant of `ai.service.ts`) repeatedly calls
`JSON.parse`; the fueled recursive-descent parser below models it.  Numbers
are parsed into `ℚ` (JavaScript doubles are not modelled exactly; none of the
claims depend on numeric rounding). -/

inductive Json where
  | null
  | bool (b : Bool)
  | num (q : ℚ)
  | str (s : String)
  | arr (elements : List Json)
  | obj (members : List (String × Json))
deriving Repr

def isJsonWs (c : Char) : Bool := c == ' ' || c == '\t' || c == '\n' || c == '\r'

def skipWs (cs : List Char) : List Char := cs.dropWhile isJsonWs

def expectLit : List Char → List Char → Option (List Char)
  | [], cs => some cs
  | p :: ps, c :: cs => if c = p then expectLit ps cs else none
  | _ :: _, [] => none

def isDigitChar (c : Char) : Bool := 48 ≤ c.toNat && c.toNat ≤ 57

def digitsToNat (ds : List Char) : Nat := ds.foldl (fun n c => n * 10 + (c.toNat - 48)) 0

def escChar : Char → Option Char
  | '"' => some '"'
  | '\\' => some '\\'
  | '/' => some '/'
  | 'b' => some (Char.ofNat 8)
  | 'f' => some (Char.ofNat 12)
  | 'n' => some '\n'
  | 'r' => some '\r'
  | 't' => some '\t'
  | _ => none

def hexVal (c : Char) : Option Nat :=
  if 48 ≤ c.toNat ∧ c.toNat ≤ 57 then some (c.toNat - 48)
  else if 97 ≤ c.toNat ∧ c.toNat ≤ 102 then some (c.toNat - 87)
  else if 65 ≤ c.toNat ∧ c.toNat ≤ 70 then some (c.toNat - 55)
  else none

def parseStringBody : List Char → Option (List Char × List Char)
  | [] => none
  | '"' :: cs => some ([], cs)
  | '\\' :: 'u' :: h1 :: h2 :: h3 :: h4 :: cs =>
    match hexVal h1, hexVal h2, hexVal h3, hexVal h4 with
    | some a, some b, some c, some d =>
      (parseStringBody cs).map (fun r => (Char.ofNat (((a * 16 + b) * 16 + c) * 16 + d) :: r.1, r.2))
    | _, _, _, _ => none
  | '\\' :: e :: cs =>
    match escChar e with
    | some c => (parseStringBody cs).map (fun r => (c :: r.1, r.2))
    | none => none
  | c :: cs =>
    if c.toNat < 32 then none
    else (parseStringBody cs).map (fun r => (c :: r.1, r.2))

def parseFracPart : List Char → Option (ℚ × List Char)
  | '.' :: r =>
    let fd := r.takeWhile isDigitChar
    if fd = [] then none
    else some ((digitsToNat fd : ℚ) / (10 : ℚ) ^ fd.length, r.dropWhile isDigitChar)
  | cs => some (0, cs)

def parseExpPart : List Char → Option (ℚ × List Char)
  | c :: r =>
    if c = 'e' ∨ c = 'E' then
      let sr : Int × List Char := match r with
        | '+' :: t => (1, t)
        | '-' :: t => (-1, t)
        | t => (1, t)
      let ed := sr.2.takeWhile isDigitChar
      if ed = [] then none
      else some ((10 : ℚ) ^ (sr.1 * (digitsToNat ed : Int)), sr.2.dropWhile isDigitChar)
    else some (1, c :: r)
  | [] => some (1, [])

def parseNumber (cs : List Char) : Option (ℚ × List Char) :=
  let nr : Bool × List Char := match cs with
    | '-' :: t => (true, t)
    | _ => (false, cs)
  let intDigits := nr.2.takeWhile isDigitChar
  let rest1 := nr.2.dropWhile isDigitChar
  if intDigits = [] then none
  else if 1 < intDigits.length ∧ intDigits.head? = some '0' then none
  else
    match parseFracPart rest1 with
    | none => none
    | some (fv, rest2) =>
      match parseExpPart rest2 with
      | none => none
      | some (ev, rest3) =>
        let mag := ((digitsToNat intDigits : ℚ) + fv) * ev
        some (if nr.1 then -mag else mag, rest3)

mutual

def parseValue : Nat → List Char → Option (Json × List Char)
  | 0, _ => none
  | fuel + 1, cs =>
    match skipWs cs with
    | [] => none
    | c :: rest =>
      if c = '\x7b' then
        match skipWs rest with
        | c2 :: rest2 =>
          if c2 = '\x7d' then some (.obj [], rest2)
          else (parseMembers fuel rest).map (fun r => (Json.obj r.1, r.2))
        | [] => none
      else if c = '[' then
        match skipWs rest with
        | c2 :: rest2 =>
          if c2 = ']' then some (.arr [], rest2)
          else (parseElements fuel rest).map (fun r => (Json.arr r.1, r.2))
        | [] => none
      else if c = '"' then
        (parseStringBody rest).map (fun r => (Json.str (String.mk r.1), r.2))
      else if c = 't' then
        (expectLit ['r', 'u', 'e'] rest).map (fun r => (Json.bool true, r))
      else if c = 'f' then
        (expectLit ['a', 'l', 's', 'e'] rest).map (fun r => (Json.bool false, r))
      else if c = 'n' then
        (expectLit ['u', 'l', 'l'] rest).map (fun r => (Json.null, r))
      else if c = '-' ∨ isDigitChar c then
        (parseNumber (c :: rest)).map (fun r => (Json.num r.1, r.2))
      else none

def parseElements : Nat → List Char → Option (List Json × List Char)
  | 0, _ => none
  | fuel + 1, cs =>
    match parseValue fuel cs with
    | none => none
    | some (v, rest) =>
      match skipWs rest with
      | c :: rest2 =>
        if c = ',' then (parseElements fuel rest2).map (fun r => (v :: r.1, r.2))
        else if c = ']' then some ([v], rest2)
        else none
      | [] => none

def parseMembers : Nat → List Char → Option (List (String × Json) × List Char)
  | 0, _ => none
  | fuel + 1, cs =>
    match skipWs cs with
    | c :: rest =>
      if c = '"' then
        match parseStringBody rest with
        | none => none
        | some (key, rest2) =>
          match skipWs rest2 with
          | c2 :: rest3 =>
            if c2 = ':' then
              match parseValue fuel rest3 with
              | none => none
              | some (v, rest4) =>
                match skipWs rest4 with
                | c3 :: rest5 =>
                  if c3 = ',' then
                    (parseMembers fuel rest5).map (fun r => ((String.mk key, v) :: r.1, r.2))
                  else if c3 = '\x7d' then some ([(String.mk key, v)], rest5)
                  else none
                | [] => none
            else none
          | [] => none
      else none
    | [] => none

end

def jsonParse (s : String) : Option Json :=
  match parseValue (2 * s.length + 2) s.toList with
  | some (v, rest) => if skipWs rest = [] then some v else none
  | none => none

/-! ## Output recovery parser (`parseJSONFromLLM` in the Ollama variant)

Stage 2 models the regex
`/(three backticks)(?:json)?\s*\n?([\s\S]*?)\n?\s*(three backticks)/`:
the capture is the text between the first fence (after an optional `json`
tag) and the next fence.  The `\s*\n?` fragments only trim whitespace that
`String.trim` removes again at the single use site
(`cleaned = codeBlockMatch[1].trim()`), so the model leaves them to `trim`. -/

def backtick : Char := '\x60'

/-- Split a character list at the first occurrence of three backticks,
returning the text before it and the text after it. -/
def splitAtFence : List Char → Option (List Char × List Char)
  | [] => none
  | c :: cs =>
    if c = backtick ∧ cs.take 2 = [backtick, backtick] then some ([], cs.drop 2)
    else (splitAtFence cs).map (fun r => (c :: r.1, r.2))

/-- The capture of the markdown-fence regex: the text between the first
fence (after an optional `json` tag) and the following fence; `none` when
the regex does not match. -/
def extractFence (raw : String) : Option String :=
  match splitAtFence raw.toList with
  | none => none
  | some (_, afterOpen) =>
    let afterTag := if afterOpen.take 4 = ['j', 's', 'o', 'n'] then afterOpen.drop 4 else afterOpen
    match splitAtFence afterTag with
    | none => none
    | some (inner, _) => some (String.mk inner)

/-- JavaScript `\s` for the characters that can occur here. -/
def isJsWs (c : Char) : Bool :=
  c == ' ' || c == '\t' || c == '\n' || c == '\r' || c == '\x0b' || c == '\x0c'

/-- The global regex replace `.replace(/,\s*([\]}])/g, "$1")`: every comma
followed by only whitespace and then a closing bracket or brace is deleted
together with that whitespace. -/
def removeTrailingCommasGo : Nat → List Char → List Char
  | 0, l => l
  | _ + 1, [] => []
  | fuel + 1, c :: rest =>
    if c = ',' then
      match rest.dropWhile isJsWs with
      | b :: rest2 =>
        if b = ']' ∨ b = '\x7d' then b :: removeTrailingCommasGo fuel rest2
        else ',' :: removeTrailingCommasGo fuel rest
      | [] => ',' :: removeTrailingCommasGo fuel rest
    else c :: removeTrailingCommasGo fuel rest

/-- Each scanning step consumes at least one character, so fuel equal to the
length of the text runs the scan to completion. -/
def removeTrailingCommas (s : String) : String :=
  String.mk (removeTrailingCommasGo s.toList.length s.toList)

/-- The regex replace removing `[\x00-\x08\x0b\x0c\x0e-\x1f]` (control
characters except newline and tab). -/
def isStrippedControl (c : Char) : Bool :=
  c.toNat ≤ 8 || c.toNat == 11 || c.toNat == 12 || (14 ≤ c.toNat && c.toNat ≤ 31)

def removeControlChars (s : String) : String :=
  String.mk (s.toList.filter (fun c => ! isStrippedControl c))

/-- `.replace(/'/g, double-quote)`. -/
def replaceSingleQuotes (s : String) : String :=
  String.mk (s.toList.map (fun c => if c = '\'' then '"' else c))

/-- Stage 4 fixups applied in source order. -/
def fixupCommon (cleaned : String) : String :=
  replaceSingleQuotes (removeControlChars (removeTrailingCommas cleaned))

/-- Stage 5: count unmatched braces/brackets and append the closers,
brackets first, then strip trailing commas again. -/
def patchTruncated (s : String) : String :=
  let cs := s.toList
  let braceCount : Int := (cs.count '\x7b' : Int) - (cs.count '\x7d' : Int)
  let bracketCount : Int := (cs.count '[' : Int) - (cs.count ']' : Int)
  removeTrailingCommas (String.mk
    (cs ++ List.replicate bracketCount.toNat ']' ++ List.replicate braceCount.toNat '\x7d'))

/-- Stages 4 and 5 of `parseJSONFromLLM`, operating on the `cleaned` text
reached after stage 3. -/
def parseJSONFixups (cleaned : String) : Option Json :=
  let fixed := fixupCommon cleaned
  match jsonParse fixed with
  | some v => some v
  | none => jsonParse (patchTruncated fixed)

/-- `raw.indexOf(single-left-brace-string)` as an optional index. -/
def firstBraceIdx (cs : List Char) : Option Nat :=
  cs.findIdx? (fun c => c = '\x7b')

/-- `raw.lastIndexOf(single-right-brace-string)` as an optional index. -/
def lastBraceIdx (cs : List Char) : Option Nat :=
  match cs.reverse.findIdx? (fun c => c = '\x7d') with
  | some k => some (cs.length - 1 - k)
  | none => none

/-- Embedding of `parseJSONFromLLM`: the five-stage recovery cascade.
Returns `none` where the source throws the final parse error. -/
def parseJSONFromLLM (raw : String) : Option Json :=
  match jsonParse raw with
  | some v => some v
  | none =>
    let fenced := extractFence raw
    let cleaned := match fenced with
      | some inner => inner.trim
      | none => raw
    let stage2 := match fenced with
      | some inner => jsonParse inner.trim
      | none => none
    match stage2 with
    | some v => some v
    | none =>
      let cs := raw.toList
      match firstBraceIdx cs, lastBraceIdx cs with
      | some i, some j =>
        if i < j then
          let cleaned3 := String.mk ((cs.drop i).take (j + 1 - i))
          match jsonParse cleaned3 with
          | some v => some v
          | none => parseJSONFixups cleaned3
        else parseJSONFixups cleaned
      | _, _ => parseJSONFixups cleaned

/-- The input class of claim C7: prose text, made precise as a nonempty
string of ASCII letters, spaces and periods that contains at least one
period (sentence text), and in particular contains no brace. -/
def proseChar (c : Char) : Bool :=
  (65 ≤ c.toNat && c.toNat ≤ 90) || (97 ≤ c.toNat && c.toNat ≤ 122) || c == ' ' || c == '.'

def IsProse (s : String) : Prop :=
  (∀ c ∈ s.toList, proseChar c = true) ∧ '.' ∈ s.toList

instance (s : String) : Decidable (IsProse s) := by
  unfold IsProse; infer_instance

/-! ## Two-pass orchestrator (`generateSequence` in `error-handler.ts`)

`generateSequence` is modelled as a function of the outcomes of the two AI
passes (each pass being the model-call executor composed with JSON parsing,
which either yields a parsed payload or throws an error message).  It
produces the result returned to the caller together with the ordered trace
of its database operations on the sequence row and its messages.  Timestamps
are modelled by a counter that advances at every write. -/

/-- An element of the parsed pass-2 `messages` array.  `step_number` is
optional because the payload is model-produced JSON that may omit it. -/
structure GeneratedMessage where
  step_number : Option Int
  message_type : String
  subject : Option String
  body : String
  thinking_process : String
  confidence_score : ℚ
  personalization_points : Json

structure SequenceGenerationResult where
  messages : List GeneratedMessage
  overall_confidence : ℚ

/-- The `message_sequences` row fields the orchestrator writes.  The stored
`prospect_analysis` JSON text is represented by the `Json` value it
stringifies. -/
structure SeqRow where
  status : String
  prospect_analysis : Option Json
  overall_confidence : Option ℚ
  error_message : Option String
  created_at : Nat
  updated_at : Nat

/-- A `sequence_messages` row as written by step 6 of the orchestrator. -/
structure MsgRow where
  step_number : Option Int
  message_type : String
  subject : Option String
  body : String
  thinking_process : String
  confidence_score : ℚ
  personalization_points : Json

/-- `msg.subject || null` under JavaScript truthiness. -/
def subjectOrNull (s : Option String) : Option String :=
  match s with
  | some v => if v = "" then none else some v
  | none => none

/-- The values handed to `db.insert(schema.sequenceMessages)` for one parsed
message: in particular `step_number: msg.step_number` is passed through
unchanged. -/
def msgToRow (m : GeneratedMessage) : MsgRow :=
  { step_number := m.step_number
    message_type := m.message_type
    subject := subjectOrNull m.subject
    body := m.body
    thinking_process := m.thinking_process
    confidence_score := m.confidence_score
    personalization_points := m.personalization_points }

/-- One database operation performed by the orchestrator, or an AI pass
(during which the executor writes its own attempt rows). -/
inductive GenEvent where
  | insertSequence (row : SeqRow)
  | aiPass (generationType : String)
  | updateSequence (row : SeqRow)
  | insertMessage (row : MsgRow)

/-- Embedding of `generateSequence` from the sequence row creation onward
(steps 3 to 6; prospect fetch and TOV-config resolution in steps 1 and 2
precede the row creation and do not touch the sequence row).  `p1` is the
outcome of `analyzeProspect` (pass 1), `p2` the outcome of
`generateMessages` (pass 2); an `Except.error` carries the thrown error
message.  The result is what the caller observes, paired with the ordered
trace of sequence/message writes.  Timestamps are modelled by a counter that
advances at every write.  Message inserts are modelled as succeeding here;
`generateSequenceChecked` below additionally enforces the schema constraint
that can make an insert throw, and `generateSequenceChecked_agrees` shows
the two models coincide whenever every message carries a step number. -/
def generateSequence (p1 : Except String Json)
    (p2 : Except String SequenceGenerationResult) :
    Except String SeqRow × List GenEvent :=
  let row0 : SeqRow :=
    { status := "generating"
      prospect_analysis := none
      overall_confidence := none
      error_message := none
      created_at := 0
      updated_at := 0 }
  match p1 with
  | .error e =>
    let rowF : SeqRow := { row0 with status := "failed", error_message := some e, updated_at := 1 }
    (.error e, [.insertSequence row0, .aiPass "prospect_analysis", .updateSequence rowF])
  | .ok analysis =>
    let row1 : SeqRow := { row0 with prospect_analysis := some analysis, updated_at := 1 }
    match p2 with
    | .error e =>
      let rowF : SeqRow := { row1 with status := "failed", error_message := some e, updated_at := 2 }
      (.error e,
       [.insertSequence row0, .aiPass "prospect_analysis", .updateSequence row1,
        .aiPass "sequence_generation", .updateSequence rowF])
    | .ok result =>
      let rowC : SeqRow :=
        { row1 with
          status := "completed"
          overall_confidence := some result.overall_confidence
          updated_at := 2 }
      (.ok rowC,
       [.insertSequence row0, .aiPass "prospect_analysis", .updateSequence row1,
        .aiPass "sequence_generation"]
       ++ result.messages.map (fun m => .insertMessage (msgToRow m))
       ++ [.updateSequence rowC])

/-- JavaScript property access on a parsed JSON value (`JSON.parse` keeps
the last occurrence of a duplicated key, hence the reversed association
lookup; access on a non-object yields `undefined`). -/
def Json.getProp (j : Json) (key : String) : Option Json :=
  match j with
  | .obj members => members.reverse.lookup key
  | _ => none

/-- `typeof raw.k === "string" ? raw.k : dflt`. -/
def stringFieldOr (raw : Json) (key dflt : String) : Json :=
  match raw.getProp key with
  | some (.str s) => .str s
  | _ => .str dflt

/-- `Array.isArray(raw.k) ? raw.k : []`. -/
def arrayFieldOr (raw : Json) (key : String) : Json :=
  match raw.getProp key with
  | some (.arr a) => .arr a
  | _ => .arr []

/-- Embedding of `normalizeProspectAnalysis` from `error-handler.ts`. -/
def normalizeProspectAnalysis (raw : Json) : Json :=
  .obj
    [("professional_summary", stringFieldOr raw "professional_summary" ""),
     ("key_interests", arrayFieldOr raw "key_interests"),
     ("potential_pain_points", arrayFieldOr raw "potential_pain_points"),
     ("personalization_hooks", arrayFieldOr raw "personalization_hooks"),
     ("recommended_angles", arrayFieldOr raw "recommended_angles"),
     ("seniority_level", stringFieldOr raw "seniority_level" "unknown")]

/-- The stored `prospect_analysis` of a read-back sequence row, as computed
by `buildSequenceResponse` (the stored JSON text is parsed and then
normalized on the read path). -/
def buildResponseAnalysis (stored : Option Json) : Option Json :=
  stored.map normalizeProspectAnalysis

/-- The sequence-row statuses written along a trace, in order. -/
def statusesOf (evs : List GenEvent) : List String :=
  evs.filterMap fun e =>
    match e with
    | .insertSequence r => some r.status
    | .updateSequence r => some r.status
    | _ => none

/-- The message rows inserted along a trace, in order. -/
def msgRowsOf (evs : List GenEvent) : List MsgRow :=
  evs.filterMap fun e =>
    match e with
    | .insertMessage r => some r
    | _ => none

def isTerminalStatus (s : String) : Bool :=
  s == "completed" || s == "failed"

/-- Position of a status along the forward chain
`pending → generating → (completed or failed)`. -/
def statusRank (s : String) : Nat :=
  if s = "pending" then 0 else if s = "generating" then 1 else 2

/-- The message of the error raised by the database driver when the
orchestrator inserts a message row whose `step_number` is absent:
`sequence_messages.step_number` is declared `integer NOT NULL` with no
default (`schema.ts` line 55 and the migration DDL), so the undefined value
reaches SQLite as NULL and `.run()` throws this constraint violation, which
the catch block of `generateSequence` then stores as `error_message`. -/
def stepNumberNotNullError : String :=
  "NOT NULL constraint failed: sequence_messages.step_number"

/-- Step 6 of `generateSequence` with the database constraint enforced: the
`for (const msg of result.messages)` loop inserts in array order; each
element with a step number becomes a row (`msgToRow`); the first element
without one makes `.run()` throw the NOT NULL violation, aborting the loop
(rows inserted before it remain, as every `.run()` commits on its own).
Returns the insert events performed plus the aborting error, if any. -/
def insertMessagesChecked : List GeneratedMessage → List GenEvent × Option String
  | [] => ([], none)
  | m :: rest =>
    match m.step_number with
    | none => ([], some stepNumberNotNullError)
    | some _ =>
      let r := insertMessagesChecked rest
      (GenEvent.insertMessage (msgToRow m) :: r.1, r.2)

/-- `generateSequence` refined with the `sequence_messages.step_number`
NOT NULL constraint: identical to `generateSequence` except that the step-6
insert loop may throw, in which case the surrounding catch block marks the
sequence `failed` with the constraint error message and re-raises it, so a
message without a step number is never persisted at all. -/
def generateSequenceChecked :
    Except String Json → Except String SequenceGenerationResult →
    Except String SeqRow × List GenEvent
  | .error e, _ =>
    (.error e,
     [.insertSequence
        { status := "generating", prospect_analysis := none, overall_confidence := none,
          error_message := none, created_at := 0, updated_at := 0 },
      .aiPass "prospect_analysis",
      .updateSequence
        { status := "failed", prospect_analysis := none, overall_confidence := none,
          error_message := some e, created_at := 0, updated_at := 1 }])
  | .ok analysis, .error e =>
    (.error e,
     [.insertSequence
        { status := "generating", prospect_analysis := none, overall_confidence := none,
          error_message := none, created_at := 0, updated_at := 0 },
      .aiPass "prospect_analysis",
      .updateSequence
        { status := "generating", prospect_analysis := some analysis,
          overall_confidence := none, error_message := none,
          created_at := 0, updated_at := 1 },
      .aiPass "sequence_generation",
      .updateSequence
        { status := "failed", prospect_analysis := some analysis,
          overall_confidence := none, error_message := some e,
          created_at := 0, updated_at := 2 }])
  | .ok analysis, .ok result =>
    match insertMessagesChecked result.messages with
    | (msgEvents, some e) =>
      (.error e,
       [.insertSequence
          { status := "generating", prospect_analysis := none, overall_confidence := none,
            error_message := none, created_at := 0, updated_at := 0 },
        .aiPass "prospect_analysis",
        .updateSequence
          { status := "generating", prospect_analysis := some analysis,
            overall_confidence := none, error_message := none,
            created_at := 0, updated_at := 1 },
        .aiPass "sequence_generation"]
       ++ msgEvents
       ++ [.updateSequence
          { status := "failed", prospect_analysis := some analysis,
            overall_confidence := none, error_message := some e,
            created_at := 0, updated_at := 2 }])
    | (msgEvents, none) =>
      (.ok
        { status := "completed", prospect_analysis := some analysis,
          overall_confidence := some result.overall_confidence,
          error_message := none, created_at := 0, updated_at := 2 },
       [.insertSequence
          { status := "generating", prospect_analysis := none, overall_confidence := none,
            error_message := none, created_at := 0, updated_at := 0 },
        .aiPass "prospect_analysis",
        .updateSequence
          { status := "generating", prospect_analysis := some analysis,
            overall_confidence := none, error_message := none,
            created_at := 0, updated_at := 1 },
        .aiPass "sequence_generation"]
       ++ msgEvents
       ++ [.updateSequence
          { status := "completed", prospect_analysis := some analysis,
            overall_confidence := some result.overall_confidence,
            error_message := none, created_at := 0, updated_at := 2 }])

/-- Concrete pass-2 result for claim C8: one message whose `step_number` was
omitted by the model. -/
def c8Result : SequenceGenerationResult :=
  { messages :=
      [{ step_number := none
         message_type := "connection_request"
         subject := none
         body := "Hi, impressive work on the data platform."
         thinking_process := "Open with a specific detail."
         confidence_score := 4/5
         personalization_points := Json.arr [] }]
    overall_confidence := 4/5 }

/-- Concrete pass-2 result used by the C8 witness: two messages carrying
their own step numbers. -/
def c8GoodResult : SequenceGenerationResult :=
  { messages :=
      [{ step_number := some 1
         message_type := "connection_request"
         subject := none
         body := "Hi, impressive work on the data platform."
         thinking_process := "Open with a specific detail."
         confidence_score := 4/5
         personalization_points := Json.arr [] },
       { step_number := some 2
         message_type := "follow_up_value"
         subject := none
         body := "Following up with a relevant case study."
         thinking_process := "Escalate value."
         confidence_score := 4/5
         personalization_points := Json.arr [] }]
    overall_confidence := 4/5 }

/-- Concrete pass-1 payload for claim C9: an analysis object in which every
field except the professional summary was omitted by the model. -/
def c9Analysis : Json :=
  .obj [("professional_summary", .str "Led platform growth at a fintech startup.")]

/-- Concrete pass-2 result for claim C9. -/
def c9Result : SequenceGenerationResult :=
  { messages := [], overall_confidence := 1/2 }

/-! ## Theorems -/

/-- C1: when every attempt under the primary model fails, the executor logs
the third primary-model attempt as `timeout` (the earlier ones as `error`),
restarts from n=1 under the distinct fallback model, and when the fallback
also always fails it terminates with the 502 fatal error reporting the last
underlying error message, after exactly 6 logged attempts. -/
theorem c1_fallback_exhaustion (cap : Nat → CallOutcome) (msgs : Nat → String)
    (generationType : String) (hfail : ∀ k, cap k = CallOutcome.fail (msgs k)) :
    let r := callOpenAI cap generationType OPENAI_PRIMARY_MODEL initState
    r.2.log.map AttemptRow.status =
      ["error", "error", "timeout", "error", "error", "timeout"] ∧
    r.2.log.map AttemptRow.model =
      [OPENAI_PRIMARY_MODEL, OPENAI_PRIMARY_MODEL, OPENAI_PRIMARY_MODEL,
       OPENAI_FALLBACK_MODEL, OPENAI_FALLBACK_MODEL, OPENAI_FALLBACK_MODEL] ∧
    r.2.log.map AttemptRow.error_message =
      [some (msgs 0), some (msgs 1), some (msgs 2),
       some (msgs 3), some (msgs 4), some (msgs 5)] ∧
    r.2.log.length = 6 ∧
    r.1 = .error
      { statusCode := 502
        message := "AI generation failed after 3 retries: " ++ msgs 5 } := by
  have hc : cap = fun k => CallOutcome.fail (msgs k) := funext hfail
  subst hc
  exact ⟨rfl, rfl, rfl, rfl, rfl⟩

/-- Witness for C1 at a concrete always-failing capability. -/
theorem c1_fallback_exhaustion_witness :
    (callOpenAI (fun _ => CallOutcome.fail "connection refused") "prospect_analysis"
        OPENAI_PRIMARY_MODEL initState).2.log.map AttemptRow.status =
      ["error", "error", "timeout", "error", "error", "timeout"] ∧
    (callOpenAI (fun _ => CallOutcome.fail "connection refused") "prospect_analysis"
        OPENAI_PRIMARY_MODEL initState).2.log.length = 6 ∧
    (callOpenAI (fun _ => CallOutcome.fail "connection refused") "prospect_analysis"
        OPENAI_PRIMARY_MODEL initState).1 = .error
      { statusCode := 502
        message := "AI generation failed after 3 retries: connection refused" } := by
  have h := c1_fallback_exhaustion (fun _ => CallOutcome.fail "connection refused")
    (fun _ => "connection refused") "prospect_analysis" (fun _ => rfl)
  exact ⟨h.1, h.2.2.2.1, h.2.2.2.2⟩

/-- C2: when the capability fails exactly twice and then succeeds, the
executor logs exactly 3 attempts (2 `error`, 1 `success`), all under the
primary model (no fallback-model attempt), sleeps 2000 ms then 4000 ms
(6000 ms total), and returns the successful content. -/
theorem c2_retry_backoff (cap : Nat → CallOutcome) (m0 m1 content : String)
    (usage : Usage) (generationType : String)
    (h0 : cap 0 = CallOutcome.fail m0) (h1 : cap 1 = CallOutcome.fail m1)
    (h2 : cap 2 = CallOutcome.ok content usage) :
    let r := callOpenAI cap generationType OPENAI_PRIMARY_MODEL initState
    r.2.log.map AttemptRow.status = ["error", "error", "success"] ∧
    r.2.log.map AttemptRow.model =
      [OPENAI_PRIMARY_MODEL, OPENAI_PRIMARY_MODEL, OPENAI_PRIMARY_MODEL] ∧
    r.2.log.length = 3 ∧
    r.2.sleepMs = 6000 ∧
    r.1 = .ok { content := content, usage := usage, model := OPENAI_PRIMARY_MODEL } := by
  have hc : cap = fun k => match k with
      | 0 => CallOutcome.fail m0
      | 1 => CallOutcome.fail m1
      | 2 => CallOutcome.ok content usage
      | n + 3 => cap (n + 3) := by
    funext k
    match k with
    | 0 => exact h0
    | 1 => exact h1
    | 2 => exact h2
    | n + 3 => rfl
  rw [hc]
  exact ⟨rfl, rfl, rfl, rfl, rfl⟩

set_option maxRecDepth 8192 in
/-- At a concrete input with formality 0.8, warmth 0.6, directness 0.5 and
custom instructions present, the translator output differs from the C6
specification sentence (which appends the custom field verbatim as the final
paragraph): the code prefixes the final paragraph with
`Additional instructions: `. -/
theorem c6_counterexample_custom_not_verbatim :
    translateTov c6Params ≠ translateTovSpecC6 c6Params ∧
    translateTov c6Params = String.intercalate "\n\n"
      [formalityMap Tier.high, warmthMap Tier.medium, directnessMap Tier.medium,
       "Additional instructions: Mention the pilot program."] ∧
    translateTovSpecC6 c6Params = String.intercalate "\n\n"
      [formalityMap Tier.high, warmthMap Tier.medium, directnessMap Tier.medium,
       "Mention the pilot program."] := by
  have hf : getTier ((4 : ℚ)/5) = Tier.high := by
    rw [getTier, if_neg (by norm_num), if_neg (by norm_num)]
  have hw : getTier ((3 : ℚ)/5) = Tier.medium := by
    rw [getTier, if_neg (by norm_num), if_pos (by norm_num)]
  have hd : getTier ((1 : ℚ)/2) = Tier.medium := by
    rw [getTier, if_neg (by norm_num), if_pos (by norm_num)]
  have e1 : translateTov c6Params = String.intercalate "\n\n"
      [formalityMap Tier.high, warmthMap Tier.medium, directnessMap Tier.medium,
       "Additional instructions: Mention the pilot program."] := by
    simp only [translateTov, c6Params]
    rw [hf, hw, hd]
    rfl
  have e2 : translateTovSpecC6 c6Params = String.intercalate "\n\n"
      [formalityMap Tier.high, warmthMap Tier.medium, directnessMap Tier.medium,
       "Mention the pilot program."] := by
    simp only [translateTovSpecC6, c6Params]
    rw [hf, hw, hd]
    rfl
  refine ⟨?_, e1, e2⟩
  rw [e1, e2]
  decide

/-- C6 (amended): the translator output is the selected tier paragraphs
joined with blank-line separators in the fixed order formality, warmth,
directness, humor, enthusiasm, custom; the mandatory axes always contribute,
humor and enthusiasm only when supplied, and a present non-empty
additional-instructions field is appended as the final paragraph behind an
`Additional instructions: ` prefix. -/
theorem c6_translator_structure (params : TovParams) :
    translateTov params = translateTovAmendedC6 params := by
  rcases params with ⟨f, w, d, h, e, c⟩
  rcases h with _ | h <;> rcases e with _ | e <;> rcases c with _ | c <;>
    first
      | rfl
      | (by_cases hc : c = "" <;> simp [translateTov, translateTovAmendedC6, hc])

/-- C5: the message-type vocabulary per requested step count: `≤ 1` gives
the single connection request, 2 and 3 give the special-cased short lists,
and above 3 the first N of the canonical six-element vocabulary. -/
theorem c5_message_type_vocabulary (n : Int) :
    (n ≤ 1 → getMessageTypes n = ["connection_request"]) ∧
    (n = 2 → getMessageTypes n = ["connection_request", "follow_up_value"]) ∧
    (n = 3 → getMessageTypes n = ["connection_request", "follow_up_value", "direct_ask"]) ∧
    (3 < n → getMessageTypes n = canonicalMessageTypes.take n.toNat) := by
  refine ⟨fun h => ?_, fun h => ?_, fun h => ?_, fun h => ?_⟩
  · rw [getMessageTypes, if_pos h]
  · rw [getMessageTypes, if_neg (by omega), if_pos h]
  · rw [getMessageTypes, if_neg (by omega), if_neg (by omega), if_pos h]
  · rw [getMessageTypes, if_neg (by omega), if_neg (by omega), if_neg (by omega)]

/-- Witness for C5 at the concrete step counts 1, 2, 3 and 5. -/
theorem c5_message_type_vocabulary_witness :
    getMessageTypes 1 = ["connection_request"] ∧
    getMessageTypes 2 = ["connection_request", "follow_up_value"] ∧
    getMessageTypes 3 = ["connection_request", "follow_up_value", "direct_ask"] ∧
    getMessageTypes 5 =
      ["connection_request", "follow_up_value", "case_study", "social_proof", "direct_ask"] :=
  ⟨(c5_message_type_vocabulary 1).1 (by decide),
   (c5_message_type_vocabulary 2).2.1 rfl,
   (c5_message_type_vocabulary 3).2.2.1 rfl,
   ((c5_message_type_vocabulary 5).2.2.2 (by decide)).trans rfl⟩

/-- C10: `getMessageTypes` always returns a non-empty list of exactly
`min (max N 1) 6` types; for the accepted request range 7..10 it returns
only 6 types (fewer than requested), and for `N ≤ 0` it still returns the
single connection request. -/
theorem c10_message_type_clamping (n : Int) :
    getMessageTypes n ≠ [] ∧
    ((getMessageTypes n).length : Int) = min (max n 1) 6 ∧
    (validSequenceLength n → 7 ≤ n → (getMessageTypes n).length = 6) ∧
    (n ≤ 0 → getMessageTypes n = ["connection_request"]) := by
  by_cases h1 : n ≤ 1
  · rw [getMessageTypes, if_pos h1]
    refine ⟨by simp, by simp; omega, fun hv _ => ?_, fun _ => rfl⟩
    rcases hv with ⟨hlo, _⟩
    omega
  · by_cases h2 : n = 2
    · rw [getMessageTypes, if_neg h1, if_pos h2]
      exact ⟨by simp, by simp; omega, fun _ h7 => by omega, fun h0 => by omega⟩
    · by_cases h3 : n = 3
      · rw [getMessageTypes, if_neg h1, if_neg h2, if_pos h3]
        exact ⟨by simp, by simp; omega, fun _ h7 => by omega, fun h0 => by omega⟩
      · rw [getMessageTypes, if_neg h1, if_neg h2, if_neg h3]
        have hlen : (canonicalMessageTypes.take n.toNat).length = min n.toNat 6 := by
          rw [List.length_take]
          rfl
        refine ⟨?_, ?_, fun _ _ => ?_, fun h0 => by omega⟩
        · intro hnil
          have := congrArg List.length hnil
          rw [hlen] at this
          simp at this
          omega
        · rw [hlen]
          omega
        · rw [hlen]
          omega

/-- Witness for C10 at the concrete step counts 8 (accepted by validation
but above the vocabulary size) and 0. -/
theorem c10_message_type_clamping_witness :
    validSequenceLength 8 ∧ (getMessageTypes 8).length = 6 ∧
    getMessageTypes 0 = ["connection_request"] :=
  ⟨by decide,
   (c10_message_type_clamping 8).2.2.1 (by decide) (by decide),
   (c10_message_type_clamping 0).2.2.2 (by decide)⟩

/-- Witness for C2 at a concrete fails-twice-then-succeeds capability. -/
theorem c2_retry_backoff_witness :
    (callOpenAI (fun k => if k < 2 then CallOutcome.fail "timeout of 120000ms exceeded"
        else CallOutcome.ok "{}" { prompt_tokens := 100, completion_tokens := 50, total_tokens := 150 })
        "sequence_generation" OPENAI_PRIMARY_MODEL initState).2.log.map AttemptRow.status =
      ["error", "error", "success"] ∧
    (callOpenAI (fun k => if k < 2 then CallOutcome.fail "timeout of 120000ms exceeded"
        else CallOutcome.ok "{}" { prompt_tokens := 100, completion_tokens := 50, total_tokens := 150 })
        "sequence_generation" OPENAI_PRIMARY_MODEL initState).2.sleepMs = 6000 := by
  have h := c2_retry_backoff
    (fun k => if k < 2 then CallOutcome.fail "timeout of 120000ms exceeded"
      else CallOutcome.ok "{}" { prompt_tokens := 100, completion_tokens := 50, total_tokens := 150 })
    "timeout of 120000ms exceeded" "timeout of 120000ms exceeded" "{}"
    { prompt_tokens := 100, completion_tokens := 50, total_tokens := 150 }
    "sequence_generation" rfl rfl rfl
  exact ⟨h.1, h.2.2.2.1⟩

lemma statusesOf_append (l1 l2 : List GenEvent) :
    statusesOf (l1 ++ l2) = statusesOf l1 ++ statusesOf l2 :=
  List.filterMap_append l1 l2 _

lemma statusesOf_msgEvents (msgs : List GeneratedMessage) :
    statusesOf (msgs.map (fun m => GenEvent.insertMessage (msgToRow m))) = [] := by
  induction msgs with
  | nil => rfl
  | cons m t ih =>
    rw [List.map_cons]
    rw [show statusesOf (GenEvent.insertMessage (msgToRow m) ::
      t.map (fun m => GenEvent.insertMessage (msgToRow m))) =
      statusesOf (t.map (fun m => GenEvent.insertMessage (msgToRow m))) from rfl]
    exact ih

/-- C3: along every execution of the orchestrator, the sequence-row statuses
move only forward along `pending → generating → (completed | failed)`;
exactly one terminal status is written; the row is created as the first
operation (before any model call); and the terminal-status write is the last
operation of the trace, so no status, analysis, confidence, error-message or
message mutation follows it. -/
theorem c3_forward_only_lifecycle (p1 : Except String Json)
    (p2 : Except String SequenceGenerationResult) :
    List.Chain' (fun a b => statusRank a ≤ statusRank b)
      (statusesOf (generateSequence p1 p2).2) ∧
    (statusesOf (generateSequence p1 p2).2).countP isTerminalStatus = 1 ∧
    (∃ r rest, (generateSequence p1 p2).2 = GenEvent.insertSequence r :: rest) ∧
    (∃ last, ((generateSequence p1 p2).2).getLast? = some (GenEvent.updateSequence last) ∧
      isTerminalStatus last.status = true) ∧
    (∀ r, GenEvent.updateSequence r ∈ ((generateSequence p1 p2).2).dropLast →
      isTerminalStatus r.status = false) := by
  rcases p1 with e | a
  · have hst : statusesOf (generateSequence (.error e) p2).2 = ["generating", "failed"] := rfl
    refine ⟨?_, ?_, ⟨_, _, rfl⟩, ⟨_, rfl, rfl⟩, ?_⟩
    · rw [hst]
      simp [List.chain'_cons, statusRank]
    · rw [hst]
      decide
    · intro r hr
      simp [generateSequence] at hr
  · rcases p2 with e | res
    · have hst : statusesOf (generateSequence (.ok a) (.error e)).2 =
          ["generating", "generating", "failed"] := rfl
      refine ⟨?_, ?_, ⟨_, _, rfl⟩, ⟨_, rfl, rfl⟩, ?_⟩
      · rw [hst]
        simp [List.chain'_cons, statusRank]
      · rw [hst]
        decide
      · intro r hr
        simp [generateSequence] at hr
        subst hr
        rfl
    · have hshape : (generateSequence (.ok a) (.ok res)).2 =
          ([GenEvent.insertSequence
              { status := "generating", prospect_analysis := none, overall_confidence := none,
                error_message := none, created_at := 0, updated_at := 0 },
            GenEvent.aiPass "prospect_analysis",
            GenEvent.updateSequence
              { status := "generating", prospect_analysis := some a, overall_confidence := none,
                error_message := none, created_at := 0, updated_at := 1 },
            GenEvent.aiPass "sequence_generation"]
           ++ res.messages.map (fun m => GenEvent.insertMessage (msgToRow m)))
          ++ [GenEvent.updateSequence
              { status := "completed", prospect_analysis := some a,
                overall_confidence := some res.overall_confidence,
                error_message := none, created_at := 0, updated_at := 2 }] := rfl
      have hst : statusesOf (generateSequence (.ok a) (.ok res)).2 =
          ["generating", "generating", "completed"] := by
        rw [hshape, statusesOf_append, statusesOf_append, statusesOf_msgEvents]
        rfl
      refine ⟨?_, ?_, ?_, ?_, ?_⟩
      · rw [hst]
        simp [List.chain'_cons, statusRank]
      · rw [hst]
        decide
      · rw [hshape]
        exact ⟨_, _, rfl⟩
      · rw [hshape, List.getLast?_concat]
        exact ⟨_, rfl, rfl⟩
      · rw [hshape, List.dropLast_concat]
        intro r hr
        simp at hr
        subst hr
        rfl

/-- C4: the caller always receives either a completed sequence or the
explicit error: if either pass throws after the row was created, the
orchestrator writes `failed` together with the error message as its last
operation, with `updated_at` bumped past creation, and re-raises the same
error; otherwise the result is a completed row. -/
theorem c4_failure_marks_failed_and_reraises (p1 : Except String Json)
    (p2 : Except String SequenceGenerationResult) :
    (∃ row, (generateSequence p1 p2).1 = .ok row ∧ row.status = "completed") ∨
    (∃ e, (generateSequence p1 p2).1 = .error e ∧
      (p1 = .error e ∨ ∃ a, p1 = .ok a ∧ p2 = .error e) ∧
      ∃ last, ((generateSequence p1 p2).2).getLast? = some (GenEvent.updateSequence last) ∧
        last.status = "failed" ∧ last.error_message = some e ∧
        last.created_at < last.updated_at) := by
  rcases p1 with e | a
  · refine .inr ⟨e, rfl, .inl rfl, ?_⟩
    refine ⟨_, rfl, rfl, rfl, ?_⟩
    exact Nat.zero_lt_one
  · rcases p2 with e | res
    · refine .inr ⟨e, rfl, .inr ⟨a, rfl, rfl⟩, ?_⟩
      refine ⟨_, rfl, rfl, rfl, ?_⟩
      exact Nat.zero_lt_two
    · exact .inl
        ⟨{ status := "completed", prospect_analysis := some a,
           overall_confidence := some res.overall_confidence,
           error_message := none, created_at := 0, updated_at := 2 }, rfl, rfl⟩

lemma msgRowsOf_append (l1 l2 : List GenEvent) :
    msgRowsOf (l1 ++ l2) = msgRowsOf l1 ++ msgRowsOf l2 :=
  List.filterMap_append l1 l2 _

lemma msgRowsOf_msgEvents (msgs : List GeneratedMessage) :
    msgRowsOf (msgs.map (fun m => GenEvent.insertMessage (msgToRow m))) =
      msgs.map msgToRow := by
  induction msgs with
  | nil => rfl
  | cons m t ih =>
    rw [List.map_cons, List.map_cons]
    rw [show msgRowsOf (GenEvent.insertMessage (msgToRow m) ::
      t.map (fun m => GenEvent.insertMessage (msgToRow m))) =
      msgToRow m :: msgRowsOf (t.map (fun m => GenEvent.insertMessage (msgToRow m))) from rfl]
    rw [ih]

lemma insertMessagesChecked_all_some {msgs : List GeneratedMessage}
    (h : ∀ m ∈ msgs, (m.step_number).isSome = true) :
    insertMessagesChecked msgs =
      (msgs.map (fun m => GenEvent.insertMessage (msgToRow m)), none) := by
  induction msgs with
  | nil => rfl
  | cons m t ih =>
    have hm := h m (List.mem_cons_self m t)
    cases hsn : m.step_number with
    | none => rw [hsn] at hm; exact absurd hm (by decide)
    | some n =>
      have ht := ih (fun m2 hm2 => h m2 (List.mem_cons_of_mem m hm2))
      show (match m.step_number with
        | none => (([] : List GenEvent), some stepNumberNotNullError)
        | some _ =>
          let r := insertMessagesChecked t
          (GenEvent.insertMessage (msgToRow m) :: r.1, r.2)) =
        ((m :: t).map (fun m => GenEvent.insertMessage (msgToRow m)), none)
      rw [hsn, ht]
      rfl

lemma insertMessagesChecked_abort {pre : List GeneratedMessage} {m : GeneratedMessage}
    (post : List GeneratedMessage) (hm : m.step_number = none)
    (hpre : ∀ m2 ∈ pre, (m2.step_number).isSome = true) :
    insertMessagesChecked (pre ++ m :: post) =
      (pre.map (fun m => GenEvent.insertMessage (msgToRow m)),
       some stepNumberNotNullError) := by
  induction pre with
  | nil =>
    show (match m.step_number with
      | none => (([] : List GenEvent), some stepNumberNotNullError)
      | some _ =>
        let r := insertMessagesChecked post
        (GenEvent.insertMessage (msgToRow m) :: r.1, r.2)) = _
    rw [hm]
    rfl
  | cons p t ih =>
    have hp := hpre p (List.mem_cons_self p t)
    cases hsn : p.step_number with
    | none => rw [hsn] at hp; exact absurd hp (by decide)
    | some n =>
      have ht := ih (fun m2 hm2 => hpre m2 (List.mem_cons_of_mem p hm2))
      show (match p.step_number with
        | none => (([] : List GenEvent), some stepNumberNotNullError)
        | some _ =>
          let r := insertMessagesChecked (t ++ m :: post)
          (GenEvent.insertMessage (msgToRow p) :: r.1, r.2)) =
        ((p :: t).map (fun m => GenEvent.insertMessage (msgToRow m)),
         some stepNumberNotNullError)
      rw [hsn, ht]
      rfl

/-- On pass-2 results whose messages all carry step numbers, the
constraint-checked orchestrator coincides with `generateSequence`. -/
lemma generateSequenceChecked_agrees (p1 : Except String Json)
    (p2 : Except String SequenceGenerationResult)
    (h : ∀ r, p2 = .ok r → ∀ m ∈ r.messages, (m.step_number).isSome = true) :
    generateSequenceChecked p1 p2 = generateSequence p1 p2 := by
  rcases p1 with e | a
  · rfl
  · rcases p2 with e | r
    · rfl
    · have hins := insertMessagesChecked_all_some (h r rfl)
      simp only [generateSequenceChecked]
      rw [hins]
      rfl

/-- Counterexample to C8 as stated: at a pass-2 result whose single message
has no step number, the orchestrator does not persist that message with the
claimed array-index fallback step number 1 — it persists no message row at
all, because the insert violates the NOT NULL constraint on `step_number`;
the sequence is marked `failed` with the constraint error, which is
re-raised to the caller. -/
theorem c8_counterexample_no_index_fallback :
    msgRowsOf (generateSequenceChecked (.ok (Json.obj [])) (.ok c8Result)).2 = [] ∧
    (generateSequenceChecked (.ok (Json.obj [])) (.ok c8Result)).1 =
      .error stepNumberNotNullError ∧
    ((generateSequenceChecked (.ok (Json.obj [])) (.ok c8Result)).2).getLast? =
      some (GenEvent.updateSequence
        { status := "failed", prospect_analysis := some (Json.obj []),
          overall_confidence := none,
          error_message := some stepNumberNotNullError,
          created_at := 0, updated_at := 2 }) :=
  ⟨rfl, rfl, rfl⟩

/-- C8 (amended): the orchestrator persists one message row per array
element, in array order, passing each element's own `step_number` field
through unchanged and applying no array-index fallback: when every element
carries a step number, all elements are persisted in order and the sequence
completes; the first element without one violates the NOT NULL constraint
on `sequence_messages.step_number`, so neither it nor any later element is
persisted, and the sequence is marked `failed` with the constraint error. -/
theorem c8_messages_persisted_in_order (a : Json) (r : SequenceGenerationResult) :
    ((∀ m ∈ r.messages, (m.step_number).isSome = true) →
      msgRowsOf (generateSequenceChecked (.ok a) (.ok r)).2 = r.messages.map msgToRow ∧
      (∃ row, (generateSequenceChecked (.ok a) (.ok r)).1 = .ok row ∧
        row.status = "completed")) ∧
    (∀ pre m post, r.messages = pre ++ m :: post → m.step_number = none →
      (∀ m2 ∈ pre, (m2.step_number).isSome = true) →
      msgRowsOf (generateSequenceChecked (.ok a) (.ok r)).2 = pre.map msgToRow ∧
      (generateSequenceChecked (.ok a) (.ok r)).1 = .error stepNumberNotNullError ∧
      ∃ last, ((generateSequenceChecked (.ok a) (.ok r)).2).getLast? =
        some (GenEvent.updateSequence last) ∧ last.status = "failed" ∧
        last.error_message = some stepNumberNotNullError) := by
  constructor
  · intro h
    have hins := insertMessagesChecked_all_some h
    have hfull : generateSequenceChecked (.ok a) (.ok r) =
        (.ok
          { status := "completed", prospect_analysis := some a,
            overall_confidence := some r.overall_confidence,
            error_message := none, created_at := 0, updated_at := 2 },
         [GenEvent.insertSequence
            { status := "generating", prospect_analysis := none, overall_confidence := none,
              error_message := none, created_at := 0, updated_at := 0 },
          GenEvent.aiPass "prospect_analysis",
          GenEvent.updateSequence
            { status := "generating", prospect_analysis := some a,
              overall_confidence := none, error_message := none,
              created_at := 0, updated_at := 1 },
          GenEvent.aiPass "sequence_generation"]
         ++ r.messages.map (fun m => GenEvent.insertMessage (msgToRow m))
         ++ [GenEvent.updateSequence
            { status := "completed", prospect_analysis := some a,
              overall_confidence := some r.overall_confidence,
              error_message := none, created_at := 0, updated_at := 2 }]) := by
      simp only [generateSequenceChecked]
      rw [hins]
    refine ⟨?_, ⟨{ status := "completed", prospect_analysis := some a,
                   overall_confidence := some r.overall_confidence,
                   error_message := none, created_at := 0, updated_at := 2 },
                 by rw [hfull], rfl⟩⟩
    have hsnd : (generateSequenceChecked (.ok a) (.ok r)).2 =
        ([GenEvent.insertSequence
            { status := "generating", prospect_analysis := none, overall_confidence := none,
              error_message := none, created_at := 0, updated_at := 0 },
          GenEvent.aiPass "prospect_analysis",
          GenEvent.updateSequence
            { status := "generating", prospect_analysis := some a,
              overall_confidence := none, error_message := none,
              created_at := 0, updated_at := 1 },
          GenEvent.aiPass "sequence_generation"]
         ++ r.messages.map (fun m => GenEvent.insertMessage (msgToRow m)))
        ++ [GenEvent.updateSequence
            { status := "completed", prospect_analysis := some a,
              overall_confidence := some r.overall_confidence,
              error_message := none, created_at := 0, updated_at := 2 }] := by
      rw [hfull]
    rw [hsnd, msgRowsOf_append, msgRowsOf_append, msgRowsOf_msgEvents]
    rw [show msgRowsOf [GenEvent.insertSequence
        { status := "generating", prospect_analysis := none, overall_confidence := none,
          error_message := none, created_at := 0, updated_at := 0 },
        GenEvent.aiPass "prospect_analysis",
        GenEvent.updateSequence
          { status := "generating", prospect_analysis := some a,
            overall_confidence := none, error_message := none,
            created_at := 0, updated_at := 1 },
        GenEvent.aiPass "sequence_generation"] = [] from rfl]
    rw [show msgRowsOf [GenEvent.updateSequence
        { status := "completed", prospect_analysis := some a,
          overall_confidence := some r.overall_confidence,
          error_message := none, created_at := 0, updated_at := 2 }] = [] from rfl]
    simp
  · intro pre m post hsplit hm hpre
    have hins := insertMessagesChecked_abort post hm hpre
    have hfull : generateSequenceChecked (.ok a) (.ok r) =
        (.error stepNumberNotNullError,
         ([GenEvent.insertSequence
            { status := "generating", prospect_analysis := none, overall_confidence := none,
              error_message := none, created_at := 0, updated_at := 0 },
          GenEvent.aiPass "prospect_analysis",
          GenEvent.updateSequence
            { status := "generating", prospect_analysis := some a,
              overall_confidence := none, error_message := none,
              created_at := 0, updated_at := 1 },
          GenEvent.aiPass "sequence_generation"]
         ++ pre.map (fun m => GenEvent.insertMessage (msgToRow m)))
         ++ [GenEvent.updateSequence
            { status := "failed", prospect_analysis := some a,
              overall_confidence := none,
              error_message := some stepNumberNotNullError,
              created_at := 0, updated_at := 2 }]) := by
      simp only [generateSequenceChecked]
      rw [hsplit, hins]
    refine ⟨?_, by rw [hfull], ?_⟩
    · have hsnd : (generateSequenceChecked (.ok a) (.ok r)).2 =
          ([GenEvent.insertSequence
              { status := "generating", prospect_analysis := none, overall_confidence := none,
                error_message := none, created_at := 0, updated_at := 0 },
            GenEvent.aiPass "prospect_analysis",
            GenEvent.updateSequence
              { status := "generating", prospect_analysis := some a,
                overall_confidence := none, error_message := none,
                created_at := 0, updated_at := 1 },
            GenEvent.aiPass "sequence_generation"]
           ++ pre.map (fun m => GenEvent.insertMessage (msgToRow m)))
          ++ [GenEvent.updateSequence
              { status := "failed", prospect_analysis := some a,
                overall_confidence := none,
                error_message := some stepNumberNotNullError,
                created_at := 0, updated_at := 2 }] := by
        rw [hfull]
      rw [hsnd, msgRowsOf_append, msgRowsOf_append, msgRowsOf_msgEvents]
      rw [show msgRowsOf [GenEvent.insertSequence
          { status := "generating", prospect_analysis := none, overall_confidence := none,
            error_message := none, created_at := 0, updated_at := 0 },
          GenEvent.aiPass "prospect_analysis",
          GenEvent.updateSequence
            { status := "generating", prospect_analysis := some a,
              overall_confidence := none, error_message := none,
              created_at := 0, updated_at := 1 },
          GenEvent.aiPass "sequence_generation"] = [] from rfl]
      rw [show msgRowsOf [GenEvent.updateSequence
          { status := "failed", prospect_analysis := some a,
            overall_confidence := none,
            error_message := some stepNumberNotNullError,
            created_at := 0, updated_at := 2 }] = [] from rfl]
      simp
    · refine ⟨{ status := "failed", prospect_analysis := some a,
                overall_confidence := none,
                error_message := some stepNumberNotNullError,
                created_at := 0, updated_at := 2 },
              by rw [hfull, List.getLast?_concat], rfl, rfl⟩

/-- Witness for C8 (amended) at concrete inputs: a two-message result whose
elements carry their own step numbers is persisted in order with those step
numbers, and the one-message result with no step number persists nothing. -/
theorem c8_messages_persisted_in_order_witness :
    (msgRowsOf (generateSequenceChecked (.ok (Json.obj [])) (.ok c8GoodResult)).2).map
      MsgRow.step_number = [some 1, some 2] ∧
    msgRowsOf (generateSequenceChecked (.ok (Json.obj [])) (.ok c8Result)).2 = [] := by
  constructor
  · rw [((c8_messages_persisted_in_order (Json.obj []) c8GoodResult).1 (by decide)).1]
    rfl
  · exact ((c8_messages_persisted_in_order (Json.obj []) c8Result).2 [] _ [] rfl rfl
      (fun m2 hm2 => absurd hm2 (List.not_mem_nil m2))).1

/-- Counterexample to C9 as stated: with a pass-1 payload that omits the
expected array fields, the analysis persisted onto the sequence row is the
raw payload, which differs from its normalized form. -/
theorem c9_counterexample_stored_raw_not_normalized :
    (∃ row, (generateSequence (.ok c9Analysis) (.ok c9Result)).1 = .ok row ∧
      row.prospect_analysis = some c9Analysis) ∧
    normalizeProspectAnalysis c9Analysis ≠ c9Analysis := by
  refine ⟨⟨{ status := "completed", prospect_analysis := some c9Analysis,
             overall_confidence := some c9Result.overall_confidence,
             error_message := none, created_at := 0, updated_at := 2 }, rfl, rfl⟩, ?_⟩
  intro h
  exact absurd
    (congrArg (fun j => match j with | Json.obj l => l.length | _ => 0) h)
    (by decide)

/-- C9 (amended): after a successful pass-1 parse the orchestrator persists
the raw parsed payload unchanged onto `prospect_analysis`; the normalization
(missing or non-array fields to empty lists, missing or non-string fields to
empty strings, missing seniority to `unknown`) is applied when the sequence
response is built from storage. -/
theorem c9_raw_persisted_normalized_on_read (a : Json) (r : SequenceGenerationResult) :
    ((generateSequence (.ok a) (.ok r)).2)[2]? = some (GenEvent.updateSequence
      { status := "generating", prospect_analysis := some a, overall_confidence := none,
        error_message := none, created_at := 0, updated_at := 1 }) ∧
    (∃ row, (generateSequence (.ok a) (.ok r)).1 = .ok row ∧ row.prospect_analysis = some a) ∧
    buildResponseAnalysis (some a) = some (normalizeProspectAnalysis a) := by
  refine ⟨rfl, ⟨{ status := "completed", prospect_analysis := some a,
                  overall_confidence := some r.overall_confidence,
                  error_message := none, created_at := 0, updated_at := 2 }, rfl, rfl⟩, rfl⟩

/-! Helper lemmas for claim C7: on prose input every stage of the recovery
cascade fails. -/

lemma mem_of_mem_skipWs {c : Char} {l : List Char} (h : c ∈ skipWs l) : c ∈ l :=
  (List.dropWhile_sublist isJsonWs).subset h

lemma head_skipWs_not_ws : ∀ {l c r}, skipWs l = c :: r → isJsonWs c = false := by
  intro l
  induction l with
  | nil => intro c r h; simp [skipWs] at h
  | cons a t ih =>
    intro c r h
    rw [skipWs, List.dropWhile_cons] at h
    by_cases hp : isJsonWs a
    · rw [if_pos hp] at h
      exact ih h
    · rw [if_neg hp] at h
      injection h with h1 _
      subst h1
      exact Bool.not_eq_true _ |>.mp hp

lemma expectLit_eq : ∀ (ps : List Char) {cs r : List Char},
    expectLit ps cs = some r → cs = ps ++ r := by
  intro ps
  induction ps with
  | nil =>
    intro cs r h
    rw [expectLit] at h
    injection h with h1
  | cons p pt ih =>
    intro cs r h
    cases cs with
    | nil => rw [expectLit] at h; exact absurd h (by simp)
    | cons c ct =>
      rw [expectLit] at h
      by_cases hc : c = p
      · rw [if_pos hc] at h
        rw [hc, ih h]
        rfl
      · rw [if_neg hc] at h
        exact absurd h (by simp)

lemma proseChar_cases {c : Char} (h : proseChar c = true) :
    (65 ≤ c.toNat ∧ c.toNat ≤ 90) ∨ (97 ≤ c.toNat ∧ c.toNat ≤ 122) ∨ c = ' ' ∨ c = '.' := by
  simp only [proseChar, Bool.or_eq_true, Bool.and_eq_true, decide_eq_true_eq,
    beq_iff_eq] at h
  tauto

/-- A prose character at the head of the whitespace-skipped text is a letter
or a period. -/
lemma proseChar_head {c : Char} (hp : proseChar c = true) (hw : isJsonWs c = false) :
    (65 ≤ c.toNat ∧ c.toNat ≤ 90) ∨ (97 ≤ c.toNat ∧ c.toNat ≤ 122) ∨ c = '.' := by
  rcases proseChar_cases hp with h | h | hsp | hdot
  · exact .inl h
  · exact .inr (.inl h)
  · simp [isJsonWs] at hw
    exact absurd hsp hw.1.1.1
  · exact .inr (.inr hdot)

lemma ne_of_toNat_ne {c d : Char} (h : c.toNat ≠ d.toNat) : c ≠ d :=
  fun he => h (congrArg Char.toNat he)

/-- Inversion of `parseValue` on prose text: success is only possible by
consuming one of the literals `true`, `false`, `null`. -/
lemma parseValue_prose {f : Nat} {cs : List Char} {v : Json} {rest : List Char}
    (hc : ∀ c ∈ cs, proseChar c = true)
    (h : parseValue (f + 1) cs = some (v, rest)) :
    skipWs cs = ['t', 'r', 'u', 'e'] ++ rest ∨
    skipWs cs = ['f', 'a', 'l', 's', 'e'] ++ rest ∨
    skipWs cs = ['n', 'u', 'l', 'l'] ++ rest := by
  unfold parseValue at h
  split at h
  · exact absurd h (by simp)
  · rename_i c rest1 heq
    have hcm : proseChar c = true := hc c (mem_of_mem_skipWs (by rw [heq]; exact List.mem_cons_self c rest1))
    have hnw : isJsonWs c = false := head_skipWs_not_ws heq
    have hcls := proseChar_head hcm hnw
    have htoNat : (65 ≤ c.toNat ∧ c.toNat ≤ 90) ∨ (97 ≤ c.toNat ∧ c.toNat ≤ 122) ∨
        c.toNat = 46 := by
      rcases hcls with h1 | h1 | rfl
      · exact .inl h1
      · exact .inr (.inl h1)
      · exact .inr (.inr rfl)
    have hbrace : c ≠ '\x7b' := ne_of_toNat_ne (by
      rw [show Char.toNat '\x7b' = 123 from rfl]; omega)
    have hbracket : c ≠ '[' := ne_of_toNat_ne (by
      rw [show Char.toNat '[' = 91 from rfl]; omega)
    have hquote : c ≠ '"' := ne_of_toNat_ne (by
      rw [show Char.toNat '"' = 34 from rfl]; omega)
    have hminus : c ≠ '-' := ne_of_toNat_ne (by
      rw [show Char.toNat '-' = 45 from rfl]; omega)
    have hdig : ¬ (isDigitChar c = true) := by
      simp only [isDigitChar, Bool.and_eq_true, decide_eq_true_eq]
      omega
    rw [if_neg hbrace, if_neg hbracket, if_neg hquote] at h
    by_cases ht : c = 't'
    · rw [if_pos ht] at h
      cases hel : expectLit ['r', 'u', 'e'] rest1 with
      | none => rw [hel] at h; exact absurd h (by simp)
      | some r2 =>
        rw [hel] at h
        have h2 : some (Json.bool true, r2) = some (v, rest) := h
        injection h2 with h3
        have hr : r2 = rest := congrArg Prod.snd h3
        refine .inl ?_
        rw [heq, ht, expectLit_eq _ hel, hr]
        rfl
    · rw [if_neg ht] at h
      by_cases hf : c = 'f'
      · rw [if_pos hf] at h
        cases hel : expectLit ['a', 'l', 's', 'e'] rest1 with
        | none => rw [hel] at h; exact absurd h (by simp)
        | some r2 =>
          rw [hel] at h
          have h2 : some (Json.bool false, r2) = some (v, rest) := h
          injection h2 with h3
          have hr : r2 = rest := congrArg Prod.snd h3
          refine .inr (.inl ?_)
          rw [heq, hf, expectLit_eq _ hel, hr]
          rfl
      · rw [if_neg hf] at h
        by_cases hn : c = 'n'
        · rw [if_pos hn] at h
          cases hel : expectLit ['u', 'l', 'l'] rest1 with
          | none => rw [hel] at h; exact absurd h (by simp)
          | some r2 =>
            rw [hel] at h
            have h2 : some (Json.null, r2) = some (v, rest) := h
            injection h2 with h3
            have hr : r2 = rest := congrArg Prod.snd h3
            refine .inr (.inr ?_)
            rw [heq, hn, expectLit_eq _ hel, hr]
            rfl
        · rw [if_neg hn, if_neg (by
            intro hor
            rcases hor with hor | hor
            · exact hminus hor
            · exact hdig hor)] at h
          exact absurd h (by simp)

/-- On prose input, the model of `JSON.parse` fails: the only letter-initial
JSON values are the three keyword literals, and a prose string (which
contains a period) cannot consist of whitespace, a keyword and whitespace. -/
lemma jsonParse_prose {s : String} (h : IsProse s) : jsonParse s = none := by
  rcases h with ⟨hall, hdot⟩
  cases hj : jsonParse s with
  | none => rfl
  | some v0 =>
    exfalso
    unfold jsonParse at hj
    rcases hpv : parseValue (2 * s.length + 2) s.toList with _ | ⟨v, rest⟩
    · rw [hpv] at hj
      exact absurd hj (by simp)
    · rw [hpv] at hj
      by_cases hrest : skipWs rest = []
      · have h22 : 2 * s.length + 2 = (2 * s.length + 1) + 1 := rfl
        rw [h22] at hpv
        have hinv := parseValue_prose hall hpv
        have hsplit : s.toList.takeWhile isJsonWs ++ skipWs s.toList = s.toList :=
          List.takeWhile_append_dropWhile (p := isJsonWs) (l := s.toList)
        have hdot2 : '.' ∈ s.toList := hdot
        rw [← hsplit] at hdot2
        have hwsTake : ∀ c ∈ s.toList.takeWhile isJsonWs, (c : Char) ≠ '.' := by
          intro c hcw
          have := List.mem_takeWhile_imp hcw
          intro hc
          rw [hc] at this
          exact absurd this (by decide)
        have hwsRest : ∀ c ∈ rest, (c : Char) ≠ '.' := by
          intro c hcw
          have := List.dropWhile_eq_nil_iff.mp hrest c hcw
          intro hc
          rw [hc] at this
          exact absurd this (by decide)
        rcases List.mem_append.mp hdot2 with hmem | hmem
        · exact hwsTake _ hmem rfl
        · rcases hinv with hk | hk | hk <;>
          · rw [hk] at hmem
            rcases List.mem_append.mp hmem with hkw | hr
            · simp at hkw
            · exact hwsRest _ hr rfl
      · have hj2 : (if skipWs rest = [] then some v else none) = some v0 := hj
        rw [if_neg hrest] at hj2
        exact absurd hj2 (by simp)

lemma proseChar_toNat {c : Char} (h : proseChar c = true) :
    (65 ≤ c.toNat ∧ c.toNat ≤ 90) ∨ (97 ≤ c.toNat ∧ c.toNat ≤ 122) ∨
    c.toNat = 32 ∨ c.toNat = 46 := by
  rcases proseChar_cases h with h1 | h1 | rfl | rfl
  · exact .inl h1
  · exact .inr (.inl h1)
  · exact .inr (.inr (.inl rfl))
  · exact .inr (.inr (.inr rfl))

lemma splitAtFence_no_backtick {l : List Char} (h : ∀ c ∈ l, c ≠ backtick) :
    splitAtFence l = none := by
  induction l with
  | nil => rfl
  | cons c t ih =>
    rw [splitAtFence, if_neg (fun hand => h c (List.mem_cons_self c t) hand.1),
      ih (fun d hd => h d (List.mem_cons_of_mem c hd))]
    rfl

lemma extractFence_prose {s : String} (h : ∀ c ∈ s.toList, proseChar c = true) :
    extractFence s = none := by
  unfold extractFence
  rw [splitAtFence_no_backtick (fun c hc => ne_of_toNat_ne (by
    rw [show backtick.toNat = 96 from rfl]
    have := proseChar_toNat (h c hc)
    omega))]

lemma removeTrailingCommasGo_no_comma :
    ∀ (fuel : Nat) (l : List Char), (∀ c ∈ l, c ≠ ',') →
      removeTrailingCommasGo fuel l = l := by
  intro fuel
  induction fuel with
  | zero => intro l _; rfl
  | succ f ih =>
    intro l h
    cases l with
    | nil => rfl
    | cons c t =>
      rw [removeTrailingCommasGo, if_neg (h c (List.mem_cons_self c t)),
        ih t (fun d hd => h d (List.mem_cons_of_mem c hd))]

lemma removeTrailingCommas_prose {s : String} (h : ∀ c ∈ s.toList, proseChar c = true) :
    removeTrailingCommas s = s := by
  unfold removeTrailingCommas
  rw [removeTrailingCommasGo_no_comma _ _ (fun c hc => ne_of_toNat_ne (by
    rw [show Char.toNat ',' = 44 from rfl]
    have := proseChar_toNat (h c hc)
    omega))]
  rfl

lemma fixupCommon_prose {s : String} (h : ∀ c ∈ s.toList, proseChar c = true) :
    fixupCommon s = s := by
  have h1 : removeTrailingCommas s = s := removeTrailingCommas_prose h
  have h2 : removeControlChars s = s := by
    unfold removeControlChars
    rw [List.filter_eq_self.mpr (fun c hc => by
      have := proseChar_toNat (h c hc)
      simp only [isStrippedControl, Bool.not_eq_true', Bool.or_eq_false_iff,
        Bool.and_eq_false_iff, decide_eq_false_iff_not, beq_eq_false_iff_ne]
      omega)]
    rfl
  have h3 : replaceSingleQuotes s = s := by
    unfold replaceSingleQuotes
    have hmap : s.toList.map (fun c => if c = '\'' then '"' else c) = s.toList := by
      conv_rhs => rw [← List.map_id s.toList]
      refine List.map_congr_left (fun c hc => ?_)
      rw [if_neg (ne_of_toNat_ne (by
        rw [show Char.toNat '\'' = 39 from rfl]
        have := proseChar_toNat (h c hc)
        omega))]
      rfl
    rw [hmap]
    rfl
  unfold fixupCommon
  rw [h1, h2, h3]

lemma patchTruncated_prose {s : String} (h : ∀ c ∈ s.toList, proseChar c = true) :
    patchTruncated s = s := by
  have hcount : ∀ d : Char, d.toNat = 123 ∨ d.toNat = 125 ∨ d.toNat = 91 ∨ d.toNat = 93 →
      s.toList.count d = 0 := by
    intro d hd
    refine List.count_eq_zero.mpr (fun hc => ?_)
    have := proseChar_toNat (h _ hc)
    omega
  simp only [patchTruncated]
  rw [hcount '\x7b' (by decide), hcount '\x7d' (by decide),
    hcount '[' (by decide), hcount ']' (by decide)]
  simp only [Nat.cast_zero, sub_self, Int.toNat_zero, List.replicate_zero,
    List.append_nil]
  show removeTrailingCommas s = s
  exact removeTrailingCommas_prose h

lemma parseJSONFixups_prose {s : String} (h : IsProse s) :
    parseJSONFixups s = none := by
  have hjp : jsonParse s = none := jsonParse_prose h
  unfold parseJSONFixups
  rw [fixupCommon_prose h.1]
  show (match jsonParse s with
    | some v => some v
    | none => jsonParse (patchTruncated s)) = none
  rw [hjp]
  show jsonParse (patchTruncated s) = none
  rw [patchTruncated_prose h.1]
  exact hjp

lemma firstBraceIdx_prose {s : String} (h : ∀ c ∈ s.toList, proseChar c = true) :
    firstBraceIdx s.toList = none := by
  unfold firstBraceIdx
  refine List.findIdx?_eq_none_iff.mpr (fun c hc => ?_)
  simp only [decide_eq_false_iff_not]
  exact ne_of_toNat_ne (by
    rw [show Char.toNat '\x7b' = 123 from rfl]
    have := proseChar_toNat (h c hc)
    omega)

/-- C7: on prose input (letters, spaces and sentence periods, hence no
brace), the output recovery parser fails through all five stages and
signals the parse error. -/
theorem c7_prose_yields_parse_error (s : String) (h : IsProse s) :
    parseJSONFromLLM s = none := by
  have hjp : jsonParse s = none := jsonParse_prose h
  have hred : parseJSONFromLLM s = parseJSONFixups s := by
    unfold parseJSONFromLLM
    simp only [hjp, extractFence_prose h.1, firstBraceIdx_prose h.1]
  rw [hred]
  exact parseJSONFixups_prose h

/-- Witness for C7 at a concrete prose refusal message. -/
theorem c7_prose_yields_parse_error_witness :
    IsProse "I am sorry but I cannot produce that output." ∧
    parseJSONFromLLM "I am sorry but I cannot produce that output." = none :=
  ⟨by decide, c7_prose_yields_parse_error _ (by decide)⟩

end SeqGen
